import Mathlib

/-!
Shallow embedding of the loan-management program `src/project.py`
(a terminal application over a relational store with three tables:
`users`, `loans`, `payments`).

Modelling conventions:
* Monetary amounts and interest rates are rationals (`ℚ`): the Python
  floats flow through exact arithmetic on the concrete decimal inputs
  the program manipulates, and the SQL columns are `DECIMAL`.
* `SERIAL` primary keys are modelled by `length + 1`: no row is ever
  deleted, so ids are assigned consecutively starting from 1.
* Console input parsing (`int(...)`, `float(...)`) is modelled by
  `Option`-typed inputs: `none` is a non-numeric entry, whose
  `ValueError` handler prints an error and performs no mutation.
* Each failing branch of an operation is mapped to the error taxonomy
  of the specification (§7): `print_error`/`print_warning` + early
  return with no mutation become `Except.error` with the matching
  error kind, and the state passed in is kept by the caller, so an
  error result never mutates anything.
* psycopg2 returns `DECIMAL` columns as Python `Decimal`, while console
  amounts are `float`.  Mixed *comparisons* are supported (so the
  validation branches behave as written), but mixed *arithmetic* is
  not: `new_balance = selected_loan[2] - amount` (project.py line 294)
  raises `TypeError`, which `except ValueError` does not catch; the
  process dies with a traceback before any `db.execute` of the payment
  runs.  This uncaught crash is modelled as the error kind
  `Err.typeError` — like every other error it leaves the store
  unmutated, because the crash precedes the first mutation.
* `bcrypt.hashpw (password, gensalt())` is an external collaborator;
  it is modelled by an arbitrary function `hashFn : String → String`
  supplied to `register`.
* `created_at` timestamps and the serial ids of `payments` rows are
  display-only bookkeeping and are omitted from the records.
-/

namespace LoanSys

/-- Loan lifecycle status: the `status VARCHAR(20)` column, which the
program only ever sets to `'pending'` (default), `'approved'`,
`'rejected'` or `'paid'`. -/
inductive LoanStatus where
  | pending
  | approved
  | rejected
  | paid
deriving DecidableEq

/-- A row of the `users` table (without `created_at`). -/
structure Account where
  id : Nat
  username : String
  passwordHash : String
  isAdmin : Bool
deriving DecidableEq

/-- A row of the `loans` table (without `created_at`). -/
structure Loan where
  id : Nat
  userId : Nat
  amount : ℚ
  term : Int
  interestRate : ℚ
  status : LoanStatus
  balance : ℚ
deriving DecidableEq

/-- A row of the `payments` table (without its serial id and
`created_at`). -/
structure Payment where
  loanId : Nat
  amount : ℚ
deriving DecidableEq

/-- The persistent store: the three tables. -/
structure DBState where
  users : List Account
  loans : List Loan
  payments : List Payment
deriving DecidableEq

/-- Error kinds of the specification's §7 taxonomy, as produced by the
failing branches of the embedded operations, plus `typeError`: the
uncaught `Decimal - float` crash of project.py line 294, which kills
the process before any mutation of the payment runs. -/
inductive Err where
  | validation
  | notFound
  | conflict
  | typeError
deriving DecidableEq

deriving instance DecidableEq for Except

/-- The state right after `Database.create_tables` bootstraps: the three
tables exist, empty except for the seeded `admin` account (id 1,
`is_admin = TRUE`); `adminHash` is the bcrypt hash of `"admin123"`. -/
def initState (adminHash : String) : DBState :=
  { users := [{ id := 1, username := "admin", passwordHash := adminHash, isAdmin := true }]
    loans := []
    payments := [] }

/-- `register(db)` (project.py lines 126-146).  The username-existence
check runs first (`SELECT 1 FROM users WHERE username = %s`, an exact,
case-sensitive match); then the password/confirmation comparison; then
the single `INSERT` with `is_admin` left at its `FALSE` default. -/
def register (hashFn : String → String) (db : DBState)
    (username password confirm : String) : Except Err DBState :=
  if db.users.any (fun a => a.username == username) then
    -- "Username already exists!"
    .error .conflict
  else if password ≠ confirm then
    -- "Passwords don't match!"
    .error .validation
  else
    .ok { db with
          users := db.users ++
            [{ id := db.users.length + 1, username := username,
               passwordHash := hashFn password, isAdmin := false }] }

/-- `interest_rate = min(5.0 + (term / 12), 15.0)` (project.py line 216). -/
def interest_rate (term : Int) : ℚ :=
  min (5 + (term : ℚ) / 12) 15

/-- Rounding a rate to two decimal places, as the program's `:.2f`
display (and the `DECIMAL(5, 2)` column) present it. -/
def round2 (q : ℚ) : ℚ :=
  (round (q * 100) : ℤ) / 100

/-- The id the `SERIAL` column assigns to the next `loans` row. -/
def nextLoanId (db : DBState) : Nat := db.loans.length + 1

/-- `apply_for_loan(db, user)` (project.py lines 205-227).  `float`/`int`
parse failures raise `ValueError` (modelled by `none` inputs); then
`amount <= 0 or term <= 0` is rejected; on success one `loans` row is
inserted with the default status `'pending'` and `balance = amount`. -/
def apply_for_loan (db : DBState) (uid : Nat)
    (amountIn : Option ℚ) (termIn : Option Int) : Except Err DBState :=
  match amountIn, termIn with
  | some amount, some term =>
    if amount ≤ 0 || term ≤ 0 then
      -- "Amount and term must be positive!"
      .error .validation
    else
      .ok { db with
            loans := db.loans ++
              [{ id := nextLoanId db, userId := uid, amount := amount,
                 term := term, interestRate := interest_rate term,
                 status := LoanStatus.pending, balance := amount }] }
  | _, _ =>
    -- ValueError: "Invalid input! Please enter numbers."
    .error .validation

/-- The `SELECT id, amount, balance FROM loans WHERE user_id = %s AND
status = 'approved'` query of `make_payment` (project.py lines 258-262). -/
def approvedLoansOf (db : DBState) (uid : Nat) : List Loan :=
  db.loans.filter (fun l => l.userId == uid && l.status == LoanStatus.approved)

/-- `make_payment(db, user)` (project.py lines 255-314).  In order: the
empty-approved-loans early return ("You have no approved loans.", mapped
to `notFound` since the entered loan cannot be in the caller's approved
set); `int`/`float` parsing (`ValueError` → `validation`); the linear
scan for the entered id over the approved list ("Invalid loan ID!" →
`notFound`); `amount <= 0` (`validation`); `amount > balance`
(`validation`) — the mixed `float`/`Decimal` comparisons at lines 286
and 290 are legal Python.  Once every check passes, line 294 computes
`new_balance = selected_loan[2] - amount`, which is `Decimal - float`
and raises `TypeError`; `except ValueError` (line 313) does not catch
it, so the process dies before the first `db.execute` of lines 295-309:
the balance `UPDATE`, the payment `INSERT`, and the `'paid'` transition
are dead code, and no payment attempt ever mutates the store. -/
def make_payment (db : DBState) (uid : Nat)
    (loanIdIn : Option Int) (amountIn : Option ℚ) : Except Err DBState :=
  let approved := approvedLoansOf db uid
  if approved.isEmpty then
    -- "You have no approved loans."
    .error .notFound
  else
    match loanIdIn, amountIn with
    | some lid, some amount =>
      match approved.find? (fun l => (l.id : Int) == lid) with
      | none =>
        -- "Invalid loan ID!"
        .error .notFound
      | some sel =>
        if amount ≤ 0 then
          -- "Amount must be positive!"
          .error .validation
        else if sel.balance < amount then
          -- "Payment exceeds loan balance!"
          .error .validation
        else
          -- line 294: uncaught TypeError (Decimal - float); the
          -- process crashes before any mutation
          .error .typeError
    | _, _ =>
      -- ValueError: "Invalid input! Please enter numbers."
      .error .validation

/-- One row's view of `UPDATE loans SET status = %s WHERE id = %s`
(the entered id is a raw Python `int`). -/
def setStatus (lid : Int) (s : LoanStatus) (l : Loan) : Loan :=
  if (l.id : Int) == lid then { l with status := s } else l

/-- Python's `str.lower()` as the program uses it (on the one-letter
admin decision): character-wise lowercasing. -/
def lowerStr (s : String) : String := String.mk (s.data.map Char.toLower)

/-- The decision tail of `review_pending_loans` (project.py lines
336-349): parse the loan id (`ValueError` → `validation`), lowercase the
action, and run the `'a'`/`'r'` `UPDATE`; any other action is
"Invalid action!" (`validation`).  There is no status guard: the
`UPDATE` hits whatever rows match the entered id. -/
def review_decide (db : DBState) (loanIdIn : Option Int) (action : String) :
    Except Err DBState :=
  match loanIdIn with
  | none => .error .validation
  | some lid =>
    if lowerStr action = "a" then
      .ok { db with loans := db.loans.map (setStatus lid LoanStatus.approved) }
    else if lowerStr action = "r" then
      .ok { db with loans := db.loans.map (setStatus lid LoanStatus.rejected) }
    else
      .error .validation

/-- The `WHERE l.status = 'pending'` listing query of
`review_pending_loans` (project.py lines 319-324). -/
def pendingLoans (db : DBState) : List Loan :=
  db.loans.filter (fun l => l.status == LoanStatus.pending)

/-- `review_pending_loans(db)` (project.py lines 316-349): when no
pending loan exists the function warns and returns before prompting
(mapped to `notFound`); otherwise the admin's decision runs. -/
def review_pending_loans (db : DBState) (loanIdIn : Option Int)
    (action : String) : Except Err DBState :=
  if (pendingLoans db).isEmpty then
    -- "No pending loans found."
    .error .notFound
  else
    review_decide db loanIdIn action

/-- One interactive operation of the program, with arbitrary console
inputs, taking the store from `db` to `db'`.  Only successful outcomes
change the state; every error branch returns before any mutation. -/
inductive Step : DBState → DBState → Prop where
  | reg (hashFn : String → String) (u p c : String) (db db' : DBState) :
      register hashFn db u p c = .ok db' → Step db db'
  | applyLoan (uid : Nat) (aIn : Option ℚ) (tIn : Option Int) (db db' : DBState) :
      apply_for_loan db uid aIn tIn = .ok db' → Step db db'
  | pay (uid : Nat) (lIn : Option Int) (aIn : Option ℚ) (db db' : DBState) :
      make_payment db uid lIn aIn = .ok db' → Step db db'
  | review (lIn : Option Int) (act : String) (db db' : DBState) :
      review_pending_loans db lIn act = .ok db' → Step db db'

/-- States reachable from bootstrap by any sequence of operations. -/
inductive Reachable : DBState → Prop where
  | init (adminHash : String) : Reachable (initState adminHash)
  | step (db db' : DBState) : Reachable db → Step db db' → Reachable db'

/-! ### Derived views of the store -/

/-- Sum of the amounts of all `payments` rows referencing loan `lid`. -/
def paymentsSum (db : DBState) (lid : Nat) : ℚ :=
  ((db.payments.filter (fun p => p.loanId == lid)).map Payment.amount).sum

/-- The `SERIAL` id discipline of the `loans` table: the row at index
`i` has id `i + 1` (rows are only ever appended, never deleted). -/
def idsSeq (ls : List Loan) : Prop :=
  ∀ i (h : i < ls.length), (ls.get ⟨i, h⟩).id = i + 1

/-! ### Generic list lemmas -/

theorem find?_eq_some_of_mem_unique {α : Type} (p : α → Bool) :
    ∀ (xs : List α) (a : α), a ∈ xs → p a = true →
      (∀ x ∈ xs, p x = true → x = a) → xs.find? p = some a := by
  intro xs
  induction xs with
  | nil => intro a ha; exact absurd ha (List.not_mem_nil a)
  | cons x xs ih =>
    intro a ha hpa huniq
    cases hx : p x with
    | true =>
      have hxa : x = a := huniq x (List.mem_cons_self x xs) hx
      subst hxa
      simp [List.find?_cons, hx]
    | false =>
      have hax : a ≠ x := fun h => by rw [h] at hpa; exact absurd hpa (by simp [hx])
      have ha' : a ∈ xs := by
        rcases List.mem_cons.1 ha with h | h
        · exact absurd h hax
        · exact h
      have := ih a ha' hpa (fun y hy hpy => huniq y (List.mem_cons_of_mem x hy) hpy)
      simp [List.find?_cons, hx, this]

theorem idsSeq_inj {ls : List Loan} (h : idsSeq ls) {a b : Loan}
    (ha : a ∈ ls) (hb : b ∈ ls) (hid : a.id = b.id) : a = b := by
  rcases List.mem_iff_get.1 ha with ⟨⟨i, hi⟩, rfl⟩
  rcases List.mem_iff_get.1 hb with ⟨⟨j, hj⟩, rfl⟩
  have hia := h i hi
  have hjb := h j hj
  have : i = j := by omega
  subst this
  rfl

theorem idsSeq_map {ls : List Loan} {f : Loan → Loan}
    (hf : ∀ l, (f l).id = l.id) (h : idsSeq ls) : idsSeq (ls.map f) := by
  intro i hi
  have hi' : i < ls.length := by simpa using hi
  have : (ls.map f).get ⟨i, hi⟩ = f (ls.get ⟨i, hi'⟩) := by
    simp [List.get_map]
  rw [this, hf]
  exact h i hi'

theorem idsSeq_concat {ls : List Loan} {a : Loan} (h : idsSeq ls)
    (ha : a.id = ls.length + 1) : idsSeq (ls ++ [a]) := by
  intro i hi
  have hlen : (ls ++ [a]).length = ls.length + 1 := by simp
  by_cases hcase : i < ls.length
  · have : (ls ++ [a]).get ⟨i, hi⟩ = ls.get ⟨i, hcase⟩ := by
      rw [List.get_append i hcase]
    rw [this]
    exact h i hcase
  · have hieq : i = ls.length := by omega
    subst hieq
    have : (ls ++ [a]).get ⟨ls.length, hi⟩ = a := by simp
    rw [this, ha]

/-! ### Characterizations of the operations' outcomes -/

theorem register_ok {hashFn : String → String} {db db' : DBState}
    {u p c : String} (h : register hashFn db u p c = .ok db') :
    (∀ a ∈ db.users, a.username ≠ u) ∧ p = c ∧
      db' = { db with
              users := db.users ++
                [{ id := db.users.length + 1, username := u,
                   passwordHash := hashFn p, isAdmin := false }] } := by
  unfold register at h
  by_cases hex : db.users.any (fun a => a.username == u)
  · simp [hex] at h
  · by_cases hpc : p = c
    · subst hpc
      refine ⟨?_, rfl, ?_⟩
      · intro a ha hau
        exact hex (List.any_eq_true.2 ⟨a, ha, by simp [hau]⟩)
      · simp [hex] at h
        exact h.symm
    · simp [hex, hpc] at h

theorem apply_for_loan_ok {db db' : DBState} {uid : Nat}
    {aIn : Option ℚ} {tIn : Option Int}
    (h : apply_for_loan db uid aIn tIn = .ok db') :
    ∃ a t, aIn = some a ∧ tIn = some t ∧ 0 < a ∧ 0 < t ∧
      db' = { db with
              loans := db.loans ++
                [{ id := nextLoanId db, userId := uid, amount := a,
                   term := t, interestRate := interest_rate t,
                   status := LoanStatus.pending, balance := a }] } := by
  match aIn, tIn with
  | none, _ => simp [apply_for_loan] at h
  | some a, none => simp [apply_for_loan] at h
  | some a, some t =>
    refine ⟨a, t, rfl, rfl, ?_⟩
    by_cases hpos : a ≤ 0 || t ≤ 0
    · simp [apply_for_loan, hpos] at h
    · have hsp := h
      simp [apply_for_loan, hpos] at hsp
      rcases Bool.or_eq_false_iff.1 (Bool.eq_false_iff.2 hpos) with ⟨ha, ht⟩
      refine ⟨by simpa using (decide_eq_false_iff_not.1 ha), by simpa using (decide_eq_false_iff_not.1 ht), hsp.symm⟩

theorem review_decide_ok {db db' : DBState} {lIn : Option Int} {act : String}
    (h : review_decide db lIn act = .ok db') :
    ∃ lid s, lIn = some lid ∧
      (s = LoanStatus.approved ∨ s = LoanStatus.rejected) ∧
      db' = { db with loans := db.loans.map (setStatus lid s) } := by
  match lIn with
  | none => simp [review_decide] at h
  | some lid =>
    by_cases hA : lowerStr act = "a"
    · refine ⟨lid, LoanStatus.approved, rfl, Or.inl rfl, ?_⟩
      simp [review_decide, hA] at h
      exact h.symm
    · by_cases hR : lowerStr act = "r"
      · refine ⟨lid, LoanStatus.rejected, rfl, Or.inr rfl, ?_⟩
        simp [review_decide, hA, hR] at h
        exact h.symm
      · simp [review_decide, hA, hR] at h

theorem review_pending_loans_ok {db db' : DBState} {lIn : Option Int}
    {act : String} (h : review_pending_loans db lIn act = .ok db') :
    ¬(pendingLoans db).isEmpty = true ∧ review_decide db lIn act = .ok db' := by
  by_cases hp : (pendingLoans db).isEmpty
  · simp [review_pending_loans, hp] at h
  · exact ⟨hp, by simpa [review_pending_loans, hp] using h⟩

theorem setStatus_id (lid : Int) (s : LoanStatus) (l : Loan) :
    (setStatus lid s l).id = l.id := by
  unfold setStatus; split <;> rfl

theorem setStatus_amount (lid : Int) (s : LoanStatus) (l : Loan) :
    (setStatus lid s l).amount = l.amount := by
  unfold setStatus; split <;> rfl

theorem setStatus_balance (lid : Int) (s : LoanStatus) (l : Loan) :
    (setStatus lid s l).balance = l.balance := by
  unfold setStatus; split <;> rfl

/-- Every payment attempt fails without mutating the store: with one of
the specification's validation/not-found outcomes, or — once every
check passes — with the uncaught line-294 `TypeError`.  No branch of
`make_payment` returns `.ok`. -/
theorem make_payment_always_errors (db : DBState) (uid : Nat)
    (lIn : Option Int) (aIn : Option ℚ) :
    make_payment db uid lIn aIn = .error .validation ∨
    make_payment db uid lIn aIn = .error .notFound ∨
    make_payment db uid lIn aIn = .error .typeError := by
  unfold make_payment
  by_cases he : (approvedLoansOf db uid).isEmpty = true
  · right; left; simp [he]
  · simp only [he, Bool.false_eq_true, if_false]
    cases lIn with
    | none => cases aIn <;> (left; rfl)
    | some lid =>
      cases aIn with
      | none => left; rfl
      | some amt =>
        cases hf : (approvedLoansOf db uid).find? (fun l => (l.id : Int) == lid) with
        | none => right; left; simp [hf]
        | some sel =>
          simp only [hf]
          by_cases hle : amt ≤ 0
          · left; simp [hle]
          · by_cases hbal : sel.balance < amt
            · left; simp [hle, hbal]
            · right; right; simp [hle, hbal]

/-- No payment attempt ever succeeds (the line-294 crash hits first). -/
theorem make_payment_not_ok {db db' : DBState} {uid : Nat}
    {lIn : Option Int} {aIn : Option ℚ} :
    make_payment db uid lIn aIn ≠ .ok db' := by
  intro h
  rcases make_payment_always_errors db uid lIn aIn with he | he | he <;>
    rw [h] at he <;> exact Except.noConfusion he

/-- When the caller owns no approved loan with the entered id, the scan
misses — whether or not the approved list is empty — and `make_payment`
fails with the not-found outcome before any mutation. -/
theorem make_payment_notFound {db : DBState} {uid : Nat} {lid : Int} {amt : ℚ}
    (hnone : ∀ l ∈ db.loans, (l.id : Int) = lid →
      ¬(l.userId = uid ∧ l.status = LoanStatus.approved)) :
    make_payment db uid (some lid) (some amt) = .error .notFound := by
  have hfind : (approvedLoansOf db uid).find? (fun l => (l.id : Int) == lid) = none := by
    rw [List.find?_eq_none]
    intro x hx
    have hx' := List.mem_filter.1 hx
    have hflt : x.userId = uid ∧ x.status = LoanStatus.approved := by
      have := hx'.2
      simp at this
      exact this
    simp only [beq_iff_eq]
    intro hxid
    exact hnone x hx'.1 hxid hflt
  unfold make_payment
  by_cases he : (approvedLoansOf db uid).isEmpty = true
  · simp [he]
  · simp [he, hfind]

/-- When the loans table respects the serial-id discipline, the scan of
the approved list finds exactly the caller's approved loan carrying the
entered id. -/
theorem approved_find_eq {db : DBState} {uid : Nat} {l : Loan} {lid : Int}
    (hids : idsSeq db.loans) (hl : l ∈ db.loans) (hu : l.userId = uid)
    (hs : l.status = LoanStatus.approved) (hid : (l.id : Int) = lid) :
    (approvedLoansOf db uid).find? (fun x => (x.id : Int) == lid) = some l := by
  apply find?_eq_some_of_mem_unique
  · exact List.mem_filter.2 ⟨hl, by simp [hu, hs]⟩
  · simp [hid]
  · intro x hx hpx
    have hx' := List.mem_filter.1 hx
    have hxl : (x.id : Int) = lid := by simpa using hpx
    have : x.id = l.id := by
      have : (x.id : Int) = (l.id : Int) := by rw [hxl, hid]
      exact_mod_cast this
    exact idsSeq_inj hids hx'.1 hl this

/-- The approved list is nonempty as soon as the caller has one
approved loan. -/
theorem approved_not_isEmpty {db : DBState} {uid : Nat} {l : Loan}
    (hl : l ∈ db.loans) (hu : l.userId = uid)
    (hs : l.status = LoanStatus.approved) :
    (approvedLoansOf db uid).isEmpty = false := by
  have hmem : l ∈ approvedLoansOf db uid := List.mem_filter.2 ⟨hl, by simp [hu, hs]⟩
  cases hev : (approvedLoansOf db uid).isEmpty with
  | false => rfl
  | true =>
    rw [List.isEmpty_iff] at hev
    rw [hev] at hmem
    exact absurd hmem (List.not_mem_nil l)

/-- A non-positive amount on a found approved loan is rejected with a
validation failure and no mutation. -/
theorem make_payment_nonpos {db : DBState} {uid : Nat} {l : Loan} {lid : Int}
    {amt : ℚ} (hids : idsSeq db.loans) (hl : l ∈ db.loans) (hu : l.userId = uid)
    (hs : l.status = LoanStatus.approved) (hid : (l.id : Int) = lid)
    (hamt : amt ≤ 0) :
    make_payment db uid (some lid) (some amt) = .error .validation := by
  have hfind := approved_find_eq hids hl hu hs hid
  have hne := approved_not_isEmpty hl hu hs
  unfold make_payment
  simp [hne, hfind, hamt]

/-- An amount exceeding the found approved loan's balance is rejected
with a validation failure and no mutation. -/
theorem make_payment_exceeds {db : DBState} {uid : Nat} {l : Loan} {lid : Int}
    {amt : ℚ} (hids : idsSeq db.loans) (hl : l ∈ db.loans) (hu : l.userId = uid)
    (hs : l.status = LoanStatus.approved) (hid : (l.id : Int) = lid)
    (hamt : 0 < amt) (hbal : l.balance < amt) :
    make_payment db uid (some lid) (some amt) = .error .validation := by
  have hfind := approved_find_eq hids hl hu hs hid
  have hne := approved_not_isEmpty hl hu hs
  unfold make_payment
  simp [hne, hfind, not_le.2 hamt, hbal]

/-! ### The structural invariant of every reachable store -/

/-- Facts the store maintains across all operations: serial ids on
`loans`, referential integrity of `payments`, the ledger/balance
reconciliation, and the balance bounds; additionally — because no
payment attempt ever gets past the line-294 crash — every balance is
strictly positive (it still equals the amount it started at) and no
loan ever carries the `'paid'` status. -/
structure SysInv (db : DBState) : Prop where
  idsOk : idsSeq db.loans
  payRef : ∀ p ∈ db.payments, 1 ≤ p.loanId ∧ p.loanId ≤ db.loans.length
  recon : ∀ l ∈ db.loans, paymentsSum db l.id = l.amount - l.balance
  balBounds : ∀ l ∈ db.loans, 0 ≤ l.balance ∧ l.balance ≤ l.amount
  balPos : ∀ l ∈ db.loans, 0 < l.balance
  notPaid : ∀ l ∈ db.loans, l.status ≠ LoanStatus.paid

theorem sysInv_init (adminHash : String) : SysInv (initState adminHash) := by
  refine ⟨?_, ?_, ?_, ?_, ?_, ?_⟩
  · intro i h; simp [initState] at h
  · intro p hp; simp [initState] at hp
  · intro l hl; simp [initState] at hl
  · intro l hl; simp [initState] at hl
  · intro l hl; simp [initState] at hl
  · intro l hl; simp [initState] at hl

theorem sysInv_step {db db' : DBState} (h : SysInv db) (hs : Step db db') :
    SysInv db' := by
  cases hs with
  | reg hashFn u p c _ _ hok =>
    obtain ⟨-, -, rfl⟩ := register_ok hok
    exact ⟨h.idsOk, h.payRef, h.recon, h.balBounds, h.balPos, h.notPaid⟩
  | applyLoan uid aIn tIn _ _ hok =>
    obtain ⟨a, t, -, -, hapos, -, rfl⟩ := apply_for_loan_ok hok
    refine ⟨?_, ?_, ?_, ?_, ?_, ?_⟩
    · exact idsSeq_concat h.idsOk rfl
    · intro p hp
      have := h.payRef p hp
      constructor
      · exact this.1
      · simp only [List.length_append, List.length_cons, List.length_nil]
        omega
    · intro l hl
      rcases List.mem_append.1 hl with hold | hnew
      · have := h.recon l hold
        simpa [paymentsSum] using this
      · have hl' := List.mem_singleton.1 hnew
        subst hl'
        have hnil : db.payments.filter (fun p => p.loanId == nextLoanId db) = [] := by
          apply List.filter_eq_nil.2
          intro p hp
          have := (h.payRef p hp).2
          simp only [beq_iff_eq, nextLoanId]
          omega
        simp [paymentsSum, hnil]
    · intro l hl
      rcases List.mem_append.1 hl with hold | hnew
      · exact h.balBounds l hold
      · have hl' := List.mem_singleton.1 hnew
        subst hl'
        exact ⟨le_of_lt hapos, le_refl a⟩
    · intro l hl
      rcases List.mem_append.1 hl with hold | hnew
      · exact h.balPos l hold
      · have hl' := List.mem_singleton.1 hnew
        subst hl'
        exact hapos
    · intro l hl
      rcases List.mem_append.1 hl with hold | hnew
      · exact h.notPaid l hold
      · have hl' := List.mem_singleton.1 hnew
        subst hl'
        simp
  | pay uid lIn aIn _ _ hok =>
    exact absurd hok make_payment_not_ok
  | review lIn act _ _ hok =>
    obtain ⟨-, hdec⟩ := review_pending_loans_ok hok
    obtain ⟨lid, s, -, hsor, rfl⟩ := review_decide_ok hdec
    refine ⟨?_, ?_, ?_, ?_, ?_, ?_⟩
    · exact idsSeq_map (setStatus_id lid s) h.idsOk
    · intro p hp
      have := h.payRef p hp
      simpa using this
    · intro m hm
      rcases List.mem_map.1 hm with ⟨l, hl, rfl⟩
      have := h.recon l hl
      simpa [paymentsSum, setStatus_id, setStatus_amount, setStatus_balance] using this
    · intro m hm
      rcases List.mem_map.1 hm with ⟨l, hl, rfl⟩
      have := h.balBounds l hl
      simpa [setStatus_balance, setStatus_amount] using this
    · intro m hm
      rcases List.mem_map.1 hm with ⟨l, hl, rfl⟩
      have := h.balPos l hl
      simpa [setStatus_balance] using this
    · intro m hm
      rcases List.mem_map.1 hm with ⟨l, hl, rfl⟩
      have hstat : (setStatus lid s l).status = s ∨
          (setStatus lid s l).status = l.status := by
        unfold setStatus
        split <;> simp
      rcases hstat with he | he
      · rw [he]
        rcases hsor with rfl | rfl <;> simp
      · rw [he]
        exact h.notPaid l hl

/-- Every reachable store satisfies the structural invariant. -/
theorem sysInv_reachable {db : DBState} (h : Reachable db) : SysInv db := by
  induction h with
  | init adminHash => exact sysInv_init adminHash
  | step db db' _ hs ih => exact sysInv_step ih hs

/-! ### Concrete states

`dbS0 → dbS1 → dbS2 → dbS3` is a real execution: bootstrap, register
`bob`, apply for a 100-for-12-months loan, approve it.  `dbS4`, `dbS5`
and `dbS6` are hand-built fixtures — the stores a full payoff, a second
application, and a re-decision of loan 1's id *would* produce.  They
are not program-reachable (the payoff crashes at line 294 instead of
producing `dbS4`); they serve only to exercise single operations such
as `make_payment` on a paid loan or `review_decide` at concrete
inputs. -/

/-- A stand-in for the external bcrypt hash in concrete runs. -/
def hashConst : String → String := fun _ => "h"

def dbS0 : DBState := initState "h0"

def dbS1 : DBState :=
  { users := [{ id := 1, username := "admin", passwordHash := "h0", isAdmin := true },
              { id := 2, username := "bob", passwordHash := "h", isAdmin := false }]
    loans := []
    payments := [] }

/-- Bob's first loan (100 for 12 months, 6% rate) at status `st` with
balance `bal`. -/
def loanOne (st : LoanStatus) (bal : ℚ) : Loan :=
  { id := 1, userId := 2, amount := 100, term := 12, interestRate := 6,
    status := st, balance := bal }

/-- Bob's second loan (50 for 12 months), freshly pending. -/
def loanTwo : Loan :=
  { id := 2, userId := 2, amount := 50, term := 12, interestRate := 6,
    status := LoanStatus.pending, balance := 50 }

def dbS2 : DBState := { dbS1 with loans := [loanOne LoanStatus.pending 100] }

def dbS3 : DBState := { dbS1 with loans := [loanOne LoanStatus.approved 100] }

/-- Fixture: `dbS3` with loan 1 fully paid off. -/
def dbS4 : DBState :=
  { dbS1 with loans := [loanOne LoanStatus.paid 0]
              payments := [{ loanId := 1, amount := 100 }] }

/-- Fixture: `dbS4` plus a second, pending application. -/
def dbS5 : DBState :=
  { dbS1 with loans := [loanOne LoanStatus.paid 0, loanTwo]
              payments := [{ loanId := 1, amount := 100 }] }

/-- Fixture: `dbS5` after re-deciding loan 1's id to `'approved'`. -/
def dbS6 : DBState :=
  { dbS1 with loans := [loanOne LoanStatus.approved 0, loanTwo]
              payments := [{ loanId := 1, amount := 100 }] }

theorem step_dbS01 : register hashConst dbS0 "bob" "pw" "pw" = .ok dbS1 := by
  rfl

theorem step_dbS12 : apply_for_loan dbS1 2 (some 100) (some 12) = .ok dbS2 := by
  unfold apply_for_loan
  norm_num [interest_rate, dbS1, dbS2, nextLoanId, loanOne]

theorem step_dbS23 : review_pending_loans dbS2 (some 1) "A" = .ok dbS3 := by
  decide

theorem step_dbS56 : review_pending_loans dbS5 (some 1) "a" = .ok dbS6 := by
  decide

theorem reach_dbS3 : Reachable dbS3 := by
  have h0 : Reachable dbS0 := Reachable.init "h0"
  have h1 : Reachable dbS1 :=
    Reachable.step dbS0 dbS1 h0 (Step.reg hashConst "bob" "pw" "pw" dbS0 dbS1 step_dbS01)
  have h2 : Reachable dbS2 :=
    Reachable.step dbS1 dbS2 h1 (Step.applyLoan 2 (some 100) (some 12) dbS1 dbS2 step_dbS12)
  exact Reachable.step dbS2 dbS3 h2 (Step.review (some 1) "A" dbS2 dbS3 step_dbS23)

theorem idsSeq_singleton {l : Loan} (h : l.id = 1) : idsSeq [l] := by
  intro i hi
  simp at hi
  subst hi
  simpa using h

/-! ### The claims -/

/-- Claim C1 (code bug): the claimed success contract — balance
decremented, one `Payment` appended, `'paid'` exactly on a zero
balance, atomically — never executes.  On the reachable state `dbS3`
(approved loan 1, balance 100 owned by user 2), both a partial payment
of 40 and a full payoff of 100 pass every check and then hit the
uncaught `Decimal - float` `TypeError` of line 294; in general every
payment attempt ends in a validation, not-found, or crash outcome, and
`make_payment` has no `.ok` outcome at all. -/
theorem make_payment_crashes :
    make_payment dbS3 2 (some 1) (some 40) = .error .typeError ∧
    make_payment dbS3 2 (some 1) (some 100) = .error .typeError ∧
    ∀ (db : DBState) (uid : Nat) (lIn : Option Int) (aIn : Option ℚ),
      make_payment db uid lIn aIn = .error .validation ∨
      make_payment db uid lIn aIn = .error .notFound ∨
      make_payment db uid lIn aIn = .error .typeError :=
  ⟨by
    unfold make_payment approvedLoansOf
    norm_num [dbS3, loanOne],
   by
    unfold make_payment approvedLoansOf
    norm_num [dbS3, loanOne],
   make_payment_always_errors⟩

/-- Claim C2: payment validation proceeds in order — (a) loan not among
the caller's approved loans → not-found failure; (b) otherwise
non-positive amount → validation failure; (c) otherwise amount above the
balance → validation failure — and every failing branch returns before
any mutation (an error outcome carries no state change).  Parts (b) and
(c) assume the serial-id discipline `idsSeq`, which
`sysInv_reachable` establishes for every reachable store. -/
theorem make_payment_validation_order (db : DBState) (uid : Nat) (lid : Int)
    (amt : ℚ) :
    ((∀ l ∈ db.loans, (l.id : Int) = lid →
        ¬(l.userId = uid ∧ l.status = LoanStatus.approved)) →
      make_payment db uid (some lid) (some amt) = .error .notFound) ∧
    (∀ l ∈ db.loans, idsSeq db.loans → (l.id : Int) = lid → l.userId = uid →
      l.status = LoanStatus.approved → amt ≤ 0 →
      make_payment db uid (some lid) (some amt) = .error .validation) ∧
    (∀ l ∈ db.loans, idsSeq db.loans → (l.id : Int) = lid → l.userId = uid →
      l.status = LoanStatus.approved → 0 < amt → l.balance < amt →
      make_payment db uid (some lid) (some amt) = .error .validation) :=
  ⟨fun hnone => make_payment_notFound hnone,
   fun l hl hids hid hu hs hamt => make_payment_nonpos hids hl hu hs hid hamt,
   fun l hl hids hid hu hs hamt hbal =>
     make_payment_exceeds hids hl hu hs hid hamt hbal⟩

theorem make_payment_validation_order_witness :
    make_payment dbS4 2 (some 1) (some 5) = .error .notFound ∧
    make_payment dbS3 2 (some 1) (some 0) = .error .validation ∧
    make_payment dbS3 2 (some 1) (some 200) = .error .validation :=
  ⟨(make_payment_validation_order dbS4 2 1 5).1 (by decide),
   (make_payment_validation_order dbS3 2 1 0).2.1 (loanOne LoanStatus.approved 100)
     (by decide) (idsSeq_singleton rfl) (by decide) rfl rfl (by norm_num),
   (make_payment_validation_order dbS3 2 1 200).2.2 (loanOne LoanStatus.approved 100)
     (by decide) (idsSeq_singleton rfl) (by decide) rfl rfl (by norm_num)
     (by norm_num [loanOne])⟩

/-- Claim C5: the interest rate is the pure function
`min(5 + term/12, 15)` of the term alone (amount and borrower are not
inputs), with `t = 12 ↦ 6.00`, `t = 120 ↦ 15.00`, `t = 0 ↦ 5.00`; for
every `t ≥ 0` it stays within `[5, 15]`, and the two-decimal rendering
(`round2`, the `:.2f` display) is exact on the three cited values. -/
theorem interest_rate_spec :
    (∀ t : Int, 0 ≤ t → interest_rate t = min (5 + (t : ℚ) / 12) 15 ∧
      5 ≤ interest_rate t ∧ interest_rate t ≤ 15) ∧
    interest_rate 12 = 6 ∧ interest_rate 120 = 15 ∧ interest_rate 0 = 5 ∧
    round2 (interest_rate 12) = 6 ∧ round2 (interest_rate 120) = 15 ∧
    round2 (interest_rate 0) = 5 := by
  refine ⟨?_, ?_, ?_, ?_, ?_, ?_, ?_⟩
  · intro t ht
    refine ⟨rfl, ?_, ?_⟩
    · rw [interest_rate]
      apply le_min
      · have htq : (0:ℚ) ≤ (t : ℚ) := by exact_mod_cast ht
        have : (0:ℚ) ≤ (t : ℚ) / 12 := by positivity
        linarith
      · norm_num
    · exact min_le_right _ _
  · norm_num [interest_rate]
  · norm_num [interest_rate]
  · norm_num [interest_rate]
  · norm_num [interest_rate, round2, round_eq]
  · norm_num [interest_rate, round2, round_eq]
  · norm_num [interest_rate, round2, round_eq]

theorem interest_rate_spec_witness :
    interest_rate 7 = min (5 + ((7 : Int) : ℚ) / 12) 15 ∧
    5 ≤ interest_rate 7 ∧ interest_rate 7 ≤ 15 :=
  interest_rate_spec.1 7 (by norm_num)

/-- Claim C6: a loan application with non-numeric (`none`) or
non-positive amount or term fails with a validation error and performs
no mutation; with `amount > 0` and `term > 0` exactly one `Loan` row is
inserted, with status `'pending'` (not auto-approved), `balance =
amount`, and the rate from `interest_rate`. -/
theorem apply_for_loan_spec (db : DBState) (uid : Nat) (aIn : Option ℚ)
    (tIn : Option Int) :
    ((aIn = none ∨ tIn = none ∨ (∃ a, aIn = some a ∧ a ≤ 0) ∨
        (∃ t, tIn = some t ∧ t ≤ 0)) →
      apply_for_loan db uid aIn tIn = .error .validation) ∧
    (∀ a t, aIn = some a → tIn = some t → 0 < a → 0 < t →
      apply_for_loan db uid aIn tIn = .ok { db with
        loans := db.loans ++
          [{ id := nextLoanId db, userId := uid, amount := a, term := t,
             interestRate := interest_rate t, status := LoanStatus.pending,
             balance := a }] }) := by
  constructor
  · intro hbad
    rcases hbad with h | h | ⟨a, ha, hle⟩ | ⟨t, ht, hle⟩
    · subst h; cases tIn <;> rfl
    · subst h; cases aIn <;> rfl
    · subst ha
      cases tIn with
      | none => rfl
      | some t => simp [apply_for_loan, hle]
    · subst ht
      cases aIn with
      | none => rfl
      | some a => simp [apply_for_loan, hle]
  · intro a t ha ht hapos htpos
    subst ha
    subst ht
    simp [apply_for_loan, not_le.2 hapos, not_le.2 htpos]

theorem apply_for_loan_spec_witness :
    apply_for_loan dbS1 2 (some (-5)) (some 12) = .error .validation ∧
    apply_for_loan dbS1 2 (some 100) (some 12) = .ok { dbS1 with
      loans := dbS1.loans ++
        [{ id := nextLoanId dbS1, userId := 2, amount := 100, term := 12,
           interestRate := interest_rate 12, status := LoanStatus.pending,
           balance := 100 }] } :=
  ⟨(apply_for_loan_spec dbS1 2 (some (-5)) (some 12)).1
     (Or.inr (Or.inr (Or.inl ⟨-5, rfl, by norm_num⟩))),
   (apply_for_loan_spec dbS1 2 (some 100) (some 12)).2 100 12 rfl rfl
     (by norm_num) (by norm_num)⟩

/-- Claim C3: in every reachable state every loan satisfies `0 ≤
balance ≤ amount` and `balance = 0 ↔ status = 'paid'`.  Both sides of
the biconditional are always false — no payment ever completes (the
line-294 crash hits first), so every balance stays at the positive
amount it was created with and no loan ever becomes `'paid'`; the final
conjunct records that explicitly, and it makes "once `'paid'`, never
changed again" hold vacuously.  (The missing status guard of
`review_decide` would break this invariant if full payoffs worked, but
no state with a paid or zero-balance loan is reachable.) -/
theorem loan_invariant_reachable :
    ∀ db, Reachable db → ∀ l ∈ db.loans,
      0 ≤ l.balance ∧ l.balance ≤ l.amount ∧
      (l.balance = 0 ↔ l.status = LoanStatus.paid) ∧
      l.status ≠ LoanStatus.paid := by
  intro db h l hl
  have hinv := sysInv_reachable h
  have hbd := hinv.balBounds l hl
  have hpos := hinv.balPos l hl
  have hnp := hinv.notPaid l hl
  refine ⟨hbd.1, hbd.2, ?_, hnp⟩
  constructor
  · intro h0
    exact absurd h0 (ne_of_gt hpos)
  · intro hp
    exact absurd hp hnp

theorem loan_invariant_reachable_witness :
    0 ≤ (loanOne LoanStatus.approved 100).balance ∧
    (loanOne LoanStatus.approved 100).balance ≤ (loanOne LoanStatus.approved 100).amount ∧
    ((loanOne LoanStatus.approved 100).balance = 0 ↔
      (loanOne LoanStatus.approved 100).status = LoanStatus.paid) ∧
    (loanOne LoanStatus.approved 100).status ≠ LoanStatus.paid :=
  loan_invariant_reachable dbS3 reach_dbS3 (loanOne LoanStatus.approved 100) (by decide)

/-- Claim C4: ledger/balance reconciliation — in every reachable state,
for every loan, the sum of the amounts of the `Payment` records carrying
its id equals its original amount minus its current balance.  (In the
program as written the payments table stays empty and every balance
stays at its amount, so both sides are zero; the inductive proof also
covers the payment mutations themselves, were they ever to commit.) -/
theorem payments_reconcile (db : DBState) (h : Reachable db) :
    ∀ l ∈ db.loans, paymentsSum db l.id = l.amount - l.balance :=
  (sysInv_reachable h).recon

theorem payments_reconcile_witness :
    paymentsSum dbS3 (loanOne LoanStatus.approved 100).id =
      (loanOne LoanStatus.approved 100).amount - (loanOne LoanStatus.approved 100).balance :=
  payments_reconcile dbS3 reach_dbS3 (loanOne LoanStatus.approved 100) (by decide)

/-- Claim C7: `Payment` records are only ever created against loans
that are `'approved'` at the moment of payment.  A payment attempt on
an id that is not among the caller's approved loans — in particular on
a pending, rejected, or already-paid loan — fails with the not-found
outcome and records nothing (both the empty-approved-list early return
and the failed id scan land there); a successful payment's single
appended record belongs to a loan that was approved in the pre-state
(vacuously so: the line-294 crash means `make_payment` never returns
`.ok`, and the program creates no payment records at all); and no other
operation ever touches the `payments` table. -/
theorem payments_only_on_approved :
    (∀ db uid (lid : Int) (amt : ℚ),
      (∀ l ∈ db.loans, (l.id : Int) = lid →
        ¬(l.userId = uid ∧ l.status = LoanStatus.approved)) →
      make_payment db uid (some lid) (some amt) = .error .notFound) ∧
    (∀ db db' uid lIn aIn, make_payment db uid lIn aIn = .ok db' →
      ∃ sel amt, sel ∈ db.loans ∧ sel.status = LoanStatus.approved ∧
        sel.userId = uid ∧
        db'.payments = db.payments ++ [{ loanId := sel.id, amount := amt }]) ∧
    (∀ hashFn db db' u p c, register hashFn db u p c = .ok db' →
      db'.payments = db.payments) ∧
    (∀ db db' uid aIn tIn, apply_for_loan db uid aIn tIn = .ok db' →
      db'.payments = db.payments) ∧
    (∀ db db' lIn act, review_pending_loans db lIn act = .ok db' →
      db'.payments = db.payments) := by
  refine ⟨?_, ?_, ?_, ?_, ?_⟩
  · intro db uid lid amt hnone
    exact make_payment_notFound hnone
  · intro db db' uid lIn aIn h
    exact absurd h make_payment_not_ok
  · intro hashFn db db' u p c h
    obtain ⟨-, -, rfl⟩ := register_ok h
    rfl
  · intro db db' uid aIn tIn h
    obtain ⟨a, t, -, -, -, -, rfl⟩ := apply_for_loan_ok h
    rfl
  · intro db db' lIn act h
    obtain ⟨-, hdec⟩ := review_pending_loans_ok h
    obtain ⟨lid, s, -, -, rfl⟩ := review_decide_ok hdec
    rfl

theorem payments_only_on_approved_witness :
    make_payment dbS4 2 (some 1) (some 7) = .error .notFound ∧
    dbS6.payments = dbS5.payments :=
  ⟨payments_only_on_approved.1 dbS4 2 1 7 (by decide),
   payments_only_on_approved.2.2.2.2 dbS5 dbS6 (some 1) "a" step_dbS56⟩

/-- Claim C8: the admin decision (`'a'`/`'r'` after lowercasing) sets
the status of every row matching the entered id to `'approved'` resp.
`'rejected'` — with no guard on the row's current status, so a decided
or even paid loan is silently overwritten — and no loan's balance
changes; rows whose id differs are untouched, so a nonexistent id is a
silent no-op. -/
theorem review_decision_overwrites (db : DBState) (lid : Int) (act : String) :
    (lowerStr act = "a" → review_decide db (some lid) act =
      .ok { db with loans := db.loans.map (setStatus lid LoanStatus.approved) }) ∧
    (lowerStr act = "r" → review_decide db (some lid) act =
      .ok { db with loans := db.loans.map (setStatus lid LoanStatus.rejected) }) ∧
    (∀ s l, (setStatus lid s l).balance = l.balance ∧
      ((l.id : Int) = lid → (setStatus lid s l).status = s) ∧
      ((l.id : Int) ≠ lid → setStatus lid s l = l)) := by
  refine ⟨?_, ?_, ?_⟩
  · intro hA
    simp [review_decide, hA]
  · intro hR
    by_cases hA : lowerStr act = "a"
    · rw [hA] at hR
      simp at hR
    · simp [review_decide, hA, hR]
  · intro s l
    refine ⟨setStatus_balance lid s l, ?_, ?_⟩
    · intro hid
      unfold setStatus
      simp [hid]
    · intro hid
      unfold setStatus
      simp [hid]

theorem review_decision_overwrites_witness :
    review_decide dbS5 (some 1) "A" =
      .ok { dbS5 with loans := dbS5.loans.map (setStatus 1 LoanStatus.approved) } ∧
    ((setStatus 1 LoanStatus.approved (loanOne LoanStatus.paid 0)).balance =
      (loanOne LoanStatus.paid 0).balance ∧
     (((loanOne LoanStatus.paid 0).id : Int) = 1 →
      (setStatus 1 LoanStatus.approved (loanOne LoanStatus.paid 0)).status =
        LoanStatus.approved) ∧
     (((loanOne LoanStatus.paid 0).id : Int) ≠ 1 →
      setStatus 1 LoanStatus.approved (loanOne LoanStatus.paid 0) =
        loanOne LoanStatus.paid 0)) :=
  ⟨(review_decision_overwrites dbS5 1 "A").1 rfl,
   (review_decision_overwrites dbS5 1 "A").2.2 LoanStatus.approved
     (loanOne LoanStatus.paid 0)⟩

/-- Any fresh username makes the duplicate scan miss. -/
theorem users_any_eq_false {db : DBState} {u : String}
    (hfresh : ∀ a ∈ db.users, a.username ≠ u) :
    db.users.any (fun x => x.username == u) = false := by
  cases hany : db.users.any (fun x => x.username == u) with
  | false => rfl
  | true =>
    obtain ⟨a, ha, hau⟩ := List.any_eq_true.1 hany
    exact absurd (by simpa using hau) (hfresh a ha)

/-- Claim C9: registering an already-taken username (case-sensitive
exact match) fails with the conflict outcome before the password is even
read, leaving every account — in particular the existing password hash —
unchanged; a fresh username (with matching password entry, see C10)
stores exactly one new account holding `hashFn password` (`hashFn`
abstracts the salted one-way bcrypt hash) and `is_admin = false`. -/
theorem register_spec (hashFn : String → String) (db : DBState)
    (u p c : String) :
    ((∃ a ∈ db.users, a.username = u) →
      register hashFn db u p c = .error .conflict) ∧
    ((∀ a ∈ db.users, a.username ≠ u) → p = c →
      register hashFn db u p c = .ok { db with
        users := db.users ++
          [{ id := db.users.length + 1, username := u,
             passwordHash := hashFn p, isAdmin := false }] }) := by
  constructor
  · rintro ⟨a, ha, hau⟩
    have : db.users.any (fun x => x.username == u) = true :=
      List.any_eq_true.2 ⟨a, ha, by simp [hau]⟩
    simp [register, this]
  · intro hfresh hpc
    subst hpc
    simp [register, users_any_eq_false hfresh]

theorem register_spec_witness :
    register hashConst dbS1 "bob" "pw" "pw" = .error .conflict ∧
    register hashConst dbS1 "Bob" "pw" "pw" = .ok { dbS1 with
      users := dbS1.users ++
        [{ id := dbS1.users.length + 1, username := "Bob",
           passwordHash := hashConst "pw", isAdmin := false }] } :=
  ⟨(register_spec hashConst dbS1 "bob" "pw" "pw").1
     ⟨{ id := 2, username := "bob", passwordHash := "h", isAdmin := false },
      by decide, rfl⟩,
   (register_spec hashConst dbS1 "Bob" "pw" "pw").2 (by decide) rfl⟩

/-- Claim C10: after the username uniqueness check passes, the password
must be entered twice; differing entries abort the registration with an
error message before any account is created (validation outcome, no
mutation) — a failure mode the specification's `Register(username,
password)` contract does not mention. -/
theorem register_confirm_mismatch (hashFn : String → String) (db : DBState)
    (u p c : String) (hfresh : ∀ a ∈ db.users, a.username ≠ u) (hne : p ≠ c) :
    register hashFn db u p c = .error .validation := by
  simp [register, users_any_eq_false hfresh, hne]

theorem register_confirm_mismatch_witness :
    register hashConst dbS1 "carol" "x" "y" = .error .validation :=
  register_confirm_mismatch hashConst dbS1 "carol" "x" "y" (by decide) (by decide)

end LoanSys
